import Mathlib

/-!
Shallow embedding of the winshatag core (winshatag/__init__.py and
winshatag/win32.py) and proofs about its specification claims.

Modelling conventions:
* Python strings are modelled as lists of characters (abbrev Str).
* Python integers are Lean Int (or Nat where the source value is a count).
  Python floor division and modulo by a positive constant coincide with
  Lean Int division and modulo (Euclidean), which is what we use.
* Stream contents are passed in explicitly: a value of type Option Str is
  the content of a named NTFS stream, none meaning the stream does not
  exist (FileNotFoundError on open).
* Fallible code returns Except: an error value models a Python exception
  propagating out of the translated function.
* The ctypes DWORD fields of FILETIME are 32-bit and silently truncate
  on assignment (verified CPython behaviour), modelled with explicit
  reduction modulo 2 ^ 32.
-/

namespace Winshatag

/-- Python strings are modelled as lists of characters. -/
abbrev Str := List Char

/-- ASCII lowercasing of one character, as Python str.lower acts on the
ASCII range (the only characters reaching it here are hex digits). -/
def lowerChar (c : Char) : Char :=
  if 'A' ≤ c ∧ c ≤ 'Z' then Char.ofNat (c.toNat + 32) else c

/-- Python str.lower on the modelled strings. -/
def lowerStr (s : Str) : Str :=
  s.map lowerChar

/-- Decimal digit character for a value below ten. -/
def digitChar (n : Nat) : Char :=
  Char.ofNat ('0'.toNat + n)

/-- Decimal digit characters of a natural number, most significant first,
as Python str formatting of a nonnegative integer produces them. -/
def natToDigits (n : Nat) : List Char :=
  if _h : n < 10 then [digitChar n]
  else natToDigits (n / 10) ++ [digitChar (n % 10)]
decreasing_by exact Nat.div_lt_self (by omega) (by omega)

/-- Decimal rendering of a Python integer (sign and digits). -/
def intToDigits (i : Int) : Str :=
  if i < 0 then '-' :: natToDigits (-i).toNat else natToDigits i.toNat

/-- Test for a decimal digit character. -/
def isDig (c : Char) : Bool :=
  decide ('0' ≤ c ∧ c ≤ '9')

/-- Nonempty and consisting only of decimal digits. -/
def allDigits (cs : Str) : Bool :=
  !cs.isEmpty && cs.all isDig

/-- Numeric value of one digit character. -/
def digVal (c : Char) : Nat :=
  c.toNat - '0'.toNat

/-- Value of a string of decimal digits, most significant first. -/
def digitsVal (cs : Str) : Nat :=
  cs.foldl (fun a c => a * 10 + digVal c) 0

/-- Python int() applied to a decimal string: an optional sign followed
by at least one digit.  (Python additionally tolerates surrounding
whitespace and embedded underscores; no string handled by the claims
uses either, so the model omits them.)  none models ValueError. -/
def pyInt (cs : Str) : Option Int :=
  match cs with
  | [] => none
  | c :: rest =>
    if c = '-' then (if allDigits rest then some (-(digitsVal rest : Int)) else none)
    else if c = '+' then (if allDigits rest then some ((digitsVal rest : Int)) else none)
    else (if allDigits (c :: rest) then some ((digitsVal (c :: rest) : Int)) else none)

/-- Python str.split applied with separator character dot: splits at every
occurrence, keeping empty parts, never returning an empty list. -/
def splitDot (cs : Str) : List Str :=
  match cs with
  | [] => [[]]
  | c :: rest =>
    if c = '.' then [] :: splitDot rest
    else
      match splitDot rest with
      | [] => [[c]]
      | p :: ps => (c :: p) :: ps

/-- Zero padding to width nine, as the Python format spec 09d does for
the nonnegative nanosecond field. -/
def pad9 (ds : Str) : Str :=
  List.replicate (9 - ds.length) '0' ++ ds

/-- Constant NANOSECONDS_IN_A_SECOND from winshatag/__init__.py. -/
def NANOSECONDS_IN_A_SECOND : Int := 1000000000

/-- Function formatTimestamp from winshatag/__init__.py, on an integer
argument (the None short circuit of the source only feeds report lines).
Python floor division and modulo by the positive constant coincide with
the Lean Int operations used here. -/
def formatTimestamp (time_ns : Int) : Str :=
  let seconds := time_ns / NANOSECONDS_IN_A_SECOND
  let nanoseconds := time_ns % NANOSECONDS_IN_A_SECOND
  intToDigits seconds ++ '.' :: pad9 (natToDigits nanoseconds.toNat)

/-- Function getStoredSha256 from winshatag/__init__.py: reads the
checksum stream and lowercases it; a missing stream
(FileNotFoundError) becomes None. -/
def getStoredSha256 (stream : Option Str) : Option Str :=
  match stream with
  | none => none
  | some s => some (lowerStr s)

/-- Python exception escaping the translated code. -/
inductive Fault where
  | parseError
deriving DecidableEq

/-- Parsing of the timestamp stream content done inside getStoredTimestamp:
split on dots, require exactly two parts, convert both with int(), and
recombine.  none models the ValueError raised by int() or by unpacking a
tuple whose length is not two. -/
def parseTsContent (s : Str) : Option Int :=
  match splitDot s with
  | [a, b] =>
    match pyInt a, pyInt b with
    | some seconds, some nanoseconds =>
      some (seconds * NANOSECONDS_IN_A_SECOND + nanoseconds)
    | _, _ => none
  | _ => none

/-- Function getStoredTimestamp from winshatag/__init__.py.  A missing
stream becomes ok none; malformed content raises ValueError, which the
source does not catch (only FileNotFoundError is), so it escapes as a
parseError fault. -/
def getStoredTimestamp (stream : Option Str) : Except Fault (Option Int) :=
  match stream with
  | none => .ok none
  | some s =>
    match parseTsContent s with
    | some t => .ok (some t)
    | none => .error .parseError

/-- Function getActualSha256 from winshatag/__init__.py, abstracted over
the hexdigest of the file content: the source lowercases the digest. -/
def getActualSha256 (hexdigest : Str) : Str :=
  lowerStr hexdigest

/-- Structure FILETIME from ctypes.wintypes as used in winshatag/win32.py:
two DWORD (32-bit) fields.  Values assigned to the fields are reduced
modulo 2 ^ 32 by ctypes without an error. -/
structure FILETIME where
  dwLowDateTime : Nat
  dwHighDateTime : Nat
deriving DecidableEq

/-- Constant NANOSECONDS_BETWEEN_EPOCHS (module private) from
winshatag/win32.py. -/
def NANOSECONDS_BETWEEN_EPOCHS : Int := 11644473600 * 1000000000

/-- Function FILETIME_to_time_ns from winshatag/win32.py: recombine the
two DWORD fields and convert 100-nanosecond intervals since 1601 to
nanoseconds since 1970. -/
def FILETIME_to_time_ns (ft : FILETIME) : Int :=
  let filetime := ft.dwLowDateTime ||| (ft.dwHighDateTime <<< 32)
  (filetime : Int) * 100 - NANOSECONDS_BETWEEN_EPOCHS

/-- Function time_ns_to_FILETIME from winshatag/win32.py.  The source
computes filetime with Python floor division (divisor 100, matching Int
division here) and builds FILETIME(filetime AND 0xFFFFFFFF,
filetime SHR 32); both ctypes DWORD fields truncate modulo 2 ^ 32 on
assignment, made explicit here. -/
def time_ns_to_FILETIME (time_ns : Int) : FILETIME :=
  let filetime := (time_ns + NANOSECONDS_BETWEEN_EPOCHS) / 100
  { dwLowDateTime := (filetime % 4294967296).toNat
    dwHighDateTime := ((filetime / 4294967296) % 4294967296).toNat }

/-- The two named streams the Metadata Store uses. -/
inductive StreamId where
  | shaStream
  | tsStream
deriving DecidableEq

/-- Handle-level events of one Win32File lifetime, in order of
occurrence: CreateFileW for writing, WriteFile, SetFileTime, CloseHandle.
The Nat identifies the handle. -/
inductive HEv where
  | openWrite (h : Nat) (stream : StreamId)
  | writeBytes (h : Nat) (data : Str)
  | setFileTime (h : Nat) (ft : FILETIME)
  | closeHandle (h : Nat)
deriving DecidableEq

/-- The persistent metadata of one file: the two named stream contents
and the file-level last-modification attribute (an NTFS FILETIME). -/
structure FileMeta where
  shaStream : Option Str
  tsStream : Option Str
  mtime : FILETIME
deriving DecidableEq

/-- Function writeSha256 from winshatag/__init__.py on a successful run:
open the checksum stream with CREATE_ALWAYS, write the digest bytes,
close.  Writing any stream mutates the shared file-level
last-modification attribute as an OS side effect; the value the OS
stores (the current clock) is the sideMtime parameter. -/
def writeSha256 (h : Nat) (sha256 : Str) (sideMtime : FILETIME) (m : FileMeta) :
    FileMeta × List HEv :=
  ({ m with shaStream := some sha256, mtime := sideMtime },
   [.openWrite h .shaStream, .writeBytes h sha256, .closeHandle h])

/-- Function writeTimestamp from winshatag/__init__.py on a successful
run: open the timestamp stream, write the formatted text (which as a
side effect moves the file-level attribute to sideMtime), then, still on
the same open handle, touch(time_ns) issues SetFileTime with the
converted value, and only then is the handle closed.  The net attribute
is therefore the converted time_ns, not sideMtime. -/
def writeTimestamp (h : Nat) (time_ns : Int) (_sideMtime : FILETIME) (m : FileMeta) :
    FileMeta × List HEv :=
  ({ m with tsStream := some (formatTimestamp time_ns),
            mtime := time_ns_to_FILETIME time_ns },
   [.openWrite h .tsStream, .writeBytes h (formatTimestamp time_ns),
    .setFileTime h (time_ns_to_FILETIME time_ns), .closeHandle h])

/-- The successful write step of main: writeSha256 followed by
writeTimestamp (the try block of lines 129-132 of the source when no
exception occurs). -/
def writeRecord (h1 h2 : Nat) (sha256 : Str) (time_ns : Int)
    (side1 side2 : FILETIME) (m : FileMeta) : FileMeta × List HEv :=
  let r1 := writeSha256 h1 sha256 side1 m
  let r2 := writeTimestamp h2 time_ns side2 r1.1
  (r2.1, r1.2 ++ r2.2)

/-- One invocation environment for main: everything the surrounding
filesystem and clock supply during the run.  filenameArg none models the
empty-list sentinel the source compares args.filename against (the
no-file-argument invocation); actualTs1 and actualTs2 are the values
os.stat returns at the first query and at the single re-query;
hexdigest is the sha256 hex digest of the content the hasher reads;
writeShaOk and writeTsOk say whether the two stream writes raise; the
AfterFail fields are the unspecified stream contents left behind by a
failed (possibly partial) write. -/
structure Env where
  filenameArg : Option Str
  tsStream : Option Str
  shaStream : Option Str
  actualTs1 : Int
  actualTs2 : Int
  hexdigest : Str
  writeShaOk : Bool
  writeTsOk : Bool
  shaAfterFail : Option Str
  tsAfterFail : Option Str
deriving DecidableEq

/-- Observable input and output actions of main, in program order.  The
first four are the captures of the four verifier inputs; writeShaAttempt
and writeTsAttempt are the calls to writeSha256 and writeTimestamp with
the data they try to persist. -/
inductive Ev where
  | readStoredTs
  | readStoredSha
  | statMtime
  | hashContent
  | writeShaAttempt (data : Str)
  | writeTsAttempt (data : Str) (touch_ns : Int)
deriving DecidableEq

/-- The report markers main prints: ok, outdated and corrupt lines. -/
inductive Report where
  | okLine
  | outdatedLine
  | corruptLine
deriving DecidableEq

/-- Result of a normal return of main: the exit code, the final contents
of the two metadata streams, the event trace and the printed report
markers. -/
structure MainRes where
  exit : Nat
  finalTs : Option Str
  finalSha : Option Str
  events : List Ev
  reports : List Report
deriving DecidableEq

/-- The four input captures of one invocation, in source order
(lines 97-100): stored timestamp, stored checksum, actual timestamp,
actual checksum. -/
def captureEvs : List Ev :=
  [.readStoredTs, .readStoredSha, .statMtime, .hashContent]

/-- The body of main after the stored timestamp has been read without a
fault (lines 98-140 of winshatag/__init__.py): capture the remaining
three inputs, run the comparison state machine, perform the write step
when must_update was set, and return the exit code. -/
def mainBody (env : Env) (stored_ts : Option Int) : MainRes :=
  let stored_sha256 := getStoredSha256 env.shaStream
  let actual_ts := env.actualTs1
  let actual_sha256 := getActualSha256 env.hexdigest
  if stored_ts = some actual_ts then
    if stored_sha256 ≠ some actual_sha256 then
      -- hashes differ: re-query the timestamp once (line 111)
      if stored_ts = some env.actualTs2 then
        -- still equal: corrupt; must_update stays False (line 118 is
        -- commented out in the source), so no write happens
        { exit := 5, finalTs := env.tsStream, finalSha := env.shaStream,
          events := captureEvs ++ [.statMtime], reports := [.corruptLine] }
      else
        -- re-queried timestamp differs: the source falls through with
        -- neither flag set: no report, no write, exit 0
        { exit := 0, finalTs := env.tsStream, finalSha := env.shaStream,
          events := captureEvs ++ [.statMtime], reports := [] }
    else
      { exit := 0, finalTs := env.tsStream, finalSha := env.shaStream,
        events := captureEvs, reports := [.okLine] }
  else
    -- timestamps differ: outdated, must_update set, write step runs
    if env.writeShaOk then
      if env.writeTsOk then
        { exit := 0, finalTs := some (formatTimestamp actual_ts),
          finalSha := some actual_sha256,
          events := captureEvs ++
            [.writeShaAttempt actual_sha256,
             .writeTsAttempt (formatTimestamp actual_ts) actual_ts],
          reports := [.outdatedLine] }
      else
        { exit := 4, finalTs := env.tsAfterFail, finalSha := some actual_sha256,
          events := captureEvs ++
            [.writeShaAttempt actual_sha256,
             .writeTsAttempt (formatTimestamp actual_ts) actual_ts],
          reports := [.outdatedLine] }
    else
      { exit := 4, finalTs := env.tsStream, finalSha := env.shaAfterFail,
        events := captureEvs ++ [.writeShaAttempt actual_sha256],
        reports := [.outdatedLine] }

instance {ε α : Type} [DecidableEq ε] [DecidableEq α] : DecidableEq (Except ε α) := fun a b =>
  match a, b with
  | .ok x, .ok y => decidable_of_iff (x = y) ⟨fun h => h ▸ rfl, fun h => Except.ok.inj h⟩
  | .error x, .error y => decidable_of_iff (x = y) ⟨fun h => h ▸ rfl, fun h => Except.error.inj h⟩
  | .ok _, .error _ => isFalse (fun h => Except.noConfusion h)
  | .error _, .ok _ => isFalse (fun h => Except.noConfusion h)

/-- Function main from winshatag/__init__.py.  The no-file-argument
sentinel returns 1 before anything is read; then the stored timestamp is
read first, and a malformed timestamp stream raises ValueError out of
main (there is no surrounding try), modelled as an error result. -/
def main (env : Env) : Except Fault MainRes :=
  match env.filenameArg with
  | none =>
    .ok { exit := 1, finalTs := env.tsStream, finalSha := env.shaStream,
          events := [], reports := [] }
  | some _ =>
    match getStoredTimestamp env.tsStream with
    | .error e => .error e
    | .ok stored_ts => .ok (mainBody env stored_ts)

/-- Concrete environment: tagged file, unchanged content, matching
timestamps, stored digest differing from the actual one only in case. -/
def envOkCase : Env :=
  { filenameArg := some ("f".toList), tsStream := some ("0.000000000".toList),
    shaStream := some ("AB12".toList), actualTs1 := 0, actualTs2 := 0,
    hexdigest := "ab12".toList, writeShaOk := true, writeTsOk := true,
    shaAfterFail := none, tsAfterFail := none }

/-- Concrete environment: matching timestamps, differing checksums, and
a re-queried timestamp that has moved on (a concurrent edit). -/
def envConcEdit : Env :=
  { filenameArg := some ("f".toList), tsStream := some ("0.000000000".toList),
    shaStream := some ("aa".toList), actualTs1 := 0, actualTs2 := 100,
    hexdigest := "bb".toList, writeShaOk := true, writeTsOk := true,
    shaAfterFail := none, tsAfterFail := none }

/-- Concrete environment: matching timestamps, differing checksums, and
a re-queried timestamp still equal to the stored one (corruption). -/
def envCorrupt : Env :=
  { filenameArg := some ("f".toList), tsStream := some ("0.000000000".toList),
    shaStream := some ("aa".toList), actualTs1 := 0, actualTs2 := 0,
    hexdigest := "bb".toList, writeShaOk := true, writeTsOk := true,
    shaAfterFail := none, tsAfterFail := none }

/-- Concrete environment: a timestamp stream whose content is not of the
seconds-dot-nanoseconds form. -/
def envMalformedTs : Env :=
  { filenameArg := some ("f".toList), tsStream := some ("bogus".toList),
    shaStream := some ("aa".toList), actualTs1 := 0, actualTs2 := 0,
    hexdigest := "aa".toList, writeShaOk := true, writeTsOk := true,
    shaAfterFail := none, tsAfterFail := none }

/-- Result of main on the concrete steady-state environment. -/
def resOkCase : MainRes :=
  { exit := 0, finalTs := some ("0.000000000".toList), finalSha := some ("AB12".toList),
    events := captureEvs, reports := [.okLine] }

/-- Result of main on the concrete concurrent-edit environment. -/
def resConcEdit : MainRes :=
  { exit := 0, finalTs := some ("0.000000000".toList), finalSha := some ("aa".toList),
    events := captureEvs ++ [.statMtime], reports := [] }

/-- Modelled from the spec wording in section 4.2: the timestamp stream
content has the form seconds, one dot, nanoseconds, with both fields
parseable as Python integers. -/
def TsTextWellFormed (s : Str) : Prop :=
  ∃ a b, s = a ++ '.' :: b ∧ '.' ∉ a ∧ '.' ∉ b ∧ pyInt a ≠ none ∧ pyInt b ≠ none

/-- Events that capture verifier inputs (as opposed to write attempts). -/
def isCaptureEv (e : Ev) : Bool :=
  match e with
  | .writeShaAttempt _ => false
  | .writeTsAttempt _ _ => false
  | _ => true

/-! Helper lemmas about digit strings, splitting and parsing. -/

theorem digit_facts : ∀ n : Nat, n < 10 → isDig (digitChar n) = true ∧ digVal (digitChar n) = n := by
  decide

theorem natToDigits_ne_nil (n : Nat) : natToDigits n ≠ [] := by
  rw [natToDigits]
  by_cases h : n < 10
  · rw [dif_pos h]
    simp
  · rw [dif_neg h]
    simp

theorem natToDigits_all (n : Nat) : (natToDigits n).all isDig = true := by
  induction n using Nat.strong_induction_on with
  | _ n ih =>
    rw [natToDigits]
    by_cases h : n < 10
    · rw [dif_pos h]
      simp [(digit_facts n h).1]
    · rw [dif_neg h, List.all_append]
      have h1 := ih (n / 10) (Nat.div_lt_self (by omega) (by omega))
      have h2 := (digit_facts (n % 10) (Nat.mod_lt _ (by omega))).1
      simp [h1, h2]

theorem digitsVal_append_singleton (cs : Str) (c : Char) :
    digitsVal (cs ++ [c]) = digitsVal cs * 10 + digVal c := by
  unfold digitsVal
  rw [List.foldl_append]
  rfl

theorem digitsVal_natToDigits (n : Nat) : digitsVal (natToDigits n) = n := by
  induction n using Nat.strong_induction_on with
  | _ n ih =>
    rw [natToDigits]
    by_cases h : n < 10
    · rw [dif_pos h]
      show 0 * 10 + digVal (digitChar n) = n
      rw [(digit_facts n h).2]
      omega
    · rw [dif_neg h, digitsVal_append_singleton]
      rw [ih (n / 10) (Nat.div_lt_self (by omega) (by omega))]
      rw [(digit_facts (n % 10) (Nat.mod_lt _ (by omega))).2]
      omega

theorem digitsVal_cons_zero (xs : Str) : digitsVal ('0' :: xs) = digitsVal xs := rfl

theorem digitsVal_pad_zeros (k : Nat) (ds : Str) :
    digitsVal (List.replicate k '0' ++ ds) = digitsVal ds := by
  induction k with
  | zero => rfl
  | succ k ih => rw [List.replicate_succ, List.cons_append, digitsVal_cons_zero, ih]

theorem allDigits_natToDigits (n : Nat) : allDigits (natToDigits n) = true := by
  unfold allDigits
  rw [natToDigits_all, Bool.and_true]
  cases h : natToDigits n with
  | nil => exact absurd h (natToDigits_ne_nil n)
  | cons c cs => simp

theorem allDigits_pad9_natToDigits (n : Nat) : allDigits (pad9 (natToDigits n)) = true := by
  unfold allDigits pad9
  rw [List.all_append, natToDigits_all, Bool.and_true]
  have hrep : (List.replicate (9 - (natToDigits n).length) '0').all isDig = true := by
    rw [List.all_eq_true]
    intro x hx
    rw [List.eq_of_mem_replicate hx]
    decide
  rw [hrep, Bool.and_true]
  cases h9 : List.replicate (9 - (natToDigits n).length) '0' ++ natToDigits n with
  | nil =>
    have := List.append_eq_nil.mp h9
    exact absurd this.2 (natToDigits_ne_nil n)
  | cons c cs => simp

theorem all_isDig_of_allDigits (cs : Str) (h : allDigits cs = true) : cs.all isDig = true := by
  unfold allDigits at h
  rw [Bool.and_eq_true] at h
  exact h.2

theorem isDig_ne_sign (c : Char) (h : isDig c = true) : c ≠ '-' ∧ c ≠ '+' := by
  constructor <;> rintro rfl <;> exact absurd h (by decide)

theorem pyInt_digits (cs : Str) (h : allDigits cs = true) :
    pyInt cs = some ((digitsVal cs : Int)) := by
  cases cs with
  | nil => exact absurd h (by decide)
  | cons c rest =>
    have hall : (c :: rest).all isDig = true := all_isDig_of_allDigits _ h
    have hc : isDig c = true := by
      rw [List.all_cons, Bool.and_eq_true] at hall
      exact hall.1
    obtain ⟨h1, h2⟩ := isDig_ne_sign c hc
    simp only [pyInt]
    rw [if_neg h1, if_neg h2, if_pos h]

theorem no_dot_of_all_digits (cs : Str) (h : cs.all isDig = true) : '.' ∉ cs := by
  intro hmem
  have hdig := List.all_eq_true.mp h _ hmem
  exact absurd hdig (by decide)

theorem splitDot_ne_nil (s : Str) : splitDot s ≠ [] := by
  cases s with
  | nil => simp [splitDot]
  | cons c rest =>
    unfold splitDot
    by_cases h : c = '.'
    · simp [h]
    · rw [if_neg h]
      cases hs : splitDot rest <;> simp

theorem splitDot_no_dot (s : Str) (h : '.' ∉ s) : splitDot s = [s] := by
  induction s with
  | nil => rfl
  | cons c rest ih =>
    have hc : ¬(c = '.') := by
      intro hc
      exact h (hc ▸ List.mem_cons_self _ _)
    have hrest : '.' ∉ rest := fun hm => h (List.mem_cons_of_mem _ hm)
    unfold splitDot
    rw [if_neg hc, ih hrest]

theorem splitDot_append (a b : Str) (ha : '.' ∉ a) :
    splitDot (a ++ '.' :: b) = a :: splitDot b := by
  induction a with
  | nil => simp [splitDot]
  | cons c a' ih =>
    have hc : ¬(c = '.') := by
      intro hc
      exact ha (hc ▸ List.mem_cons_self _ _)
    have ha' : '.' ∉ a' := fun hm => ha (List.mem_cons_of_mem _ hm)
    rw [List.cons_append]
    conv_lhs => rw [splitDot]
    rw [if_neg hc, ih ha']

theorem parse_format_roundtrip (t : Int) (h : 0 ≤ t) :
    parseTsContent (formatTimestamp t) = some t := by
  have hNS : NANOSECONDS_IN_A_SECOND = 1000000000 := rfl
  have hs0 : 0 ≤ t / NANOSECONDS_IN_A_SECOND := by
    rw [hNS]
    omega
  have hns0 : 0 ≤ t % NANOSECONDS_IN_A_SECOND := by
    rw [hNS]
    omega
  have hfmt : formatTimestamp t =
      natToDigits (t / NANOSECONDS_IN_A_SECOND).toNat ++
        '.' :: pad9 (natToDigits (t % NANOSECONDS_IN_A_SECOND).toNat) := by
    simp only [formatTimestamp, intToDigits]
    rw [if_neg (not_lt.mpr hs0)]
  rw [hfmt]
  unfold parseTsContent
  rw [splitDot_append _ _ (no_dot_of_all_digits _ (natToDigits_all _))]
  rw [splitDot_no_dot _ (no_dot_of_all_digits _ (all_isDig_of_allDigits _ (allDigits_pad9_natToDigits _)))]
  dsimp only
  rw [pyInt_digits _ (allDigits_natToDigits _), pyInt_digits _ (allDigits_pad9_natToDigits _)]
  dsimp only
  unfold pad9
  rw [digitsVal_pad_zeros, digitsVal_natToDigits, digitsVal_natToDigits]
  rw [Int.toNat_of_nonneg hs0, Int.toNat_of_nonneg hns0]
  have hfin : t / NANOSECONDS_IN_A_SECOND * NANOSECONDS_IN_A_SECOND +
      t % NANOSECONDS_IN_A_SECOND = t := by
    rw [hNS]
    omega
  rw [hfin]

theorem splitDot_cases (s : Str) :
    (splitDot s = [s] ∧ '.' ∉ s) ∨
    (∃ a rest, s = a ++ '.' :: rest ∧ '.' ∉ a ∧ splitDot s = a :: splitDot rest) := by
  induction s with
  | nil => exact Or.inl ⟨rfl, by simp⟩
  | cons c rest ih =>
    by_cases hc : c = '.'
    · right
      refine ⟨[], rest, by rw [hc]; rfl, by simp, ?_⟩
      conv_lhs => rw [splitDot]
      rw [if_pos hc]
    · cases ih with
      | inl h =>
        left
        constructor
        · conv_lhs => rw [splitDot]
          rw [if_neg hc, h.1]
        · intro hm
          rcases List.mem_cons.mp hm with h1 | h2
          · exact hc h1.symm
          · exact h.2 h2
      | inr h =>
        obtain ⟨a, r, hsr, hna, hsplit⟩ := h
        right
        refine ⟨c :: a, r, by rw [hsr]; rfl, ?_, ?_⟩
        · intro hm
          rcases List.mem_cons.mp hm with h1 | h2
          · exact hc h1.symm
          · exact hna h2
        · conv_lhs => rw [splitDot]
          rw [if_neg hc, hsplit]

theorem splitDot_pair (s a b : Str) (h : splitDot s = [a, b]) :
    s = a ++ '.' :: b ∧ '.' ∉ a ∧ '.' ∉ b := by
  rcases splitDot_cases s with ⟨h1, _⟩ | ⟨a', r, hsr, hna, hsplit⟩
  · rw [h1] at h
    simp at h
  · rw [hsplit] at h
    have ha' : a' = a := (List.cons.inj h).1
    have hr : splitDot r = [b] := (List.cons.inj h).2
    subst ha'
    rcases splitDot_cases r with ⟨h2, hnb⟩ | ⟨a2, r2, _, _, hsplit2⟩
    · rw [h2] at hr
      have hrb : r = b := (List.cons.inj hr).1
      subst hrb
      exact ⟨hsr, hna, hnb⟩
    · rw [hsplit2] at hr
      have := (List.cons.inj hr).2
      exact absurd this (splitDot_ne_nil r2)

theorem parseTsContent_ne_none_iff (s : Str) :
    parseTsContent s ≠ none ↔ TsTextWellFormed s := by
  constructor
  · intro h
    unfold parseTsContent at h
    cases hsp : splitDot s with
    | nil => exact absurd hsp (splitDot_ne_nil s)
    | cons a tail =>
      rw [hsp] at h
      cases tail with
      | nil => simp at h
      | cons b tail2 =>
        cases tail2 with
        | cons x xs => simp at h
        | nil =>
          obtain ⟨hab, hna, hnb⟩ := splitDot_pair s a b hsp
          dsimp only at h
          cases hpa : pyInt a with
          | none => rw [hpa] at h; simp at h
          | some x =>
            cases hpb : pyInt b with
            | none => rw [hpa, hpb] at h; simp at h
            | some y =>
              exact ⟨a, b, hab, hna, hnb, by rw [hpa]; simp, by rw [hpb]; simp⟩
  · rintro ⟨a, b, rfl, hna, hnb, hpa, hpb⟩
    unfold parseTsContent
    rw [splitDot_append _ _ hna, splitDot_no_dot _ hnb]
    dsimp only
    cases hpa' : pyInt a with
    | none => exact absurd hpa' hpa
    | some x =>
      cases hpb' : pyInt b with
      | none => exact absurd hpb' hpb
      | some y => simp

theorem lor_low_high (lo hi : Nat) (hlo : lo < 2 ^ 32) :
    (lo ||| (hi <<< 32)) = 2 ^ 32 * hi + lo := by
  have h1 := Nat.mul_add_lt_is_or hlo hi
  rw [Nat.shiftLeft_eq, Nat.lor_comm, Nat.mul_comm hi (2 ^ 32)]
  exact h1.symm

theorem filetime_roundtrip (t : Int)
    (h0 : 0 ≤ t + NANOSECONDS_BETWEEN_EPOCHS)
    (hlt : t + NANOSECONDS_BETWEEN_EPOCHS < 1844674407370955161600) :
    FILETIME_to_time_ns (time_ns_to_FILETIME t) =
      t - (t + NANOSECONDS_BETWEEN_EPOCHS) % 100 := by
  have hNBE : NANOSECONDS_BETWEEN_EPOCHS = 11644473600000000000 := by
    norm_num [NANOSECONDS_BETWEEN_EPOCHS]
  rw [hNBE] at h0 hlt ⊢
  simp only [FILETIME_to_time_ns, time_ns_to_FILETIME, hNBE]
  set ft : Int := (t + 11644473600000000000) / 100 with hft
  have hft0 : 0 ≤ ft := by rw [hft]; omega
  have hftlt : ft < 18446744073709551616 := by rw [hft]; omega
  obtain ⟨n, hn⟩ := Int.eq_ofNat_of_zero_le hft0
  have hnlt : n < 18446744073709551616 := by omega
  have e1 : (ft % 4294967296).toNat = n % 4294967296 := by omega
  have e2 : ((ft / 4294967296) % 4294967296).toNat = n / 4294967296 := by omega
  rw [e1, e2]
  have e3 : ((n % 4294967296) ||| ((n / 4294967296) <<< 32)) = n := by
    have hb : n % 4294967296 < 2 ^ 32 := by omega
    rw [lor_low_high _ _ hb]
    omega
  rw [e3]
  omega

theorem main_some (env : Env) (f : Str) (st : Option Int)
    (hf : env.filenameArg = some f)
    (hts : getStoredTimestamp env.tsStream = .ok st) :
    main env = .ok (mainBody env st) := by
  unfold main
  rw [hf, hts]

theorem main_error (env : Env) (f : Str) (e : Fault)
    (hf : env.filenameArg = some f)
    (hts : getStoredTimestamp env.tsStream = .error e) :
    main env = .error e := by
  unfold main
  rw [hf, hts]

theorem mainBody_enum (env : Env) (st : Option Int) :
    (st = some env.actualTs1 ∧
      getStoredSha256 env.shaStream = some (getActualSha256 env.hexdigest) ∧
      mainBody env st =
        { exit := 0, finalTs := env.tsStream, finalSha := env.shaStream,
          events := captureEvs, reports := [.okLine] }) ∨
    (st = some env.actualTs1 ∧
      getStoredSha256 env.shaStream ≠ some (getActualSha256 env.hexdigest) ∧
      st = some env.actualTs2 ∧
      mainBody env st =
        { exit := 5, finalTs := env.tsStream, finalSha := env.shaStream,
          events := captureEvs ++ [.statMtime], reports := [.corruptLine] }) ∨
    (st = some env.actualTs1 ∧
      getStoredSha256 env.shaStream ≠ some (getActualSha256 env.hexdigest) ∧
      st ≠ some env.actualTs2 ∧
      mainBody env st =
        { exit := 0, finalTs := env.tsStream, finalSha := env.shaStream,
          events := captureEvs ++ [.statMtime], reports := [] }) ∨
    (st ≠ some env.actualTs1 ∧ env.writeShaOk = true ∧ env.writeTsOk = true ∧
      mainBody env st =
        { exit := 0, finalTs := some (formatTimestamp env.actualTs1),
          finalSha := some (getActualSha256 env.hexdigest),
          events := captureEvs ++
            [.writeShaAttempt (getActualSha256 env.hexdigest),
             .writeTsAttempt (formatTimestamp env.actualTs1) env.actualTs1],
          reports := [.outdatedLine] }) ∨
    (st ≠ some env.actualTs1 ∧ env.writeShaOk = true ∧ env.writeTsOk = false ∧
      mainBody env st =
        { exit := 4, finalTs := env.tsAfterFail,
          finalSha := some (getActualSha256 env.hexdigest),
          events := captureEvs ++
            [.writeShaAttempt (getActualSha256 env.hexdigest),
             .writeTsAttempt (formatTimestamp env.actualTs1) env.actualTs1],
          reports := [.outdatedLine] }) ∨
    (st ≠ some env.actualTs1 ∧ env.writeShaOk = false ∧
      mainBody env st =
        { exit := 4, finalTs := env.tsStream, finalSha := env.shaAfterFail,
          events := captureEvs ++ [.writeShaAttempt (getActualSha256 env.hexdigest)],
          reports := [.outdatedLine] }) := by
  by_cases c1 : st = some env.actualTs1
  · by_cases c2 : getStoredSha256 env.shaStream ≠ some (getActualSha256 env.hexdigest)
    · by_cases c3 : st = some env.actualTs2
      · refine Or.inr (Or.inl ⟨c1, c2, c3, ?_⟩)
        unfold mainBody
        rw [if_pos c1, if_pos c2, if_pos c3]
      · refine Or.inr (Or.inr (Or.inl ⟨c1, c2, c3, ?_⟩))
        unfold mainBody
        rw [if_pos c1, if_pos c2, if_neg c3]
    · refine Or.inl ⟨c1, not_ne_iff.mp c2, ?_⟩
      unfold mainBody
      rw [if_pos c1, if_neg c2]
  · by_cases c4 : env.writeShaOk = true
    · by_cases c5 : env.writeTsOk = true
      · refine Or.inr (Or.inr (Or.inr (Or.inl ⟨c1, c4, c5, ?_⟩)))
        unfold mainBody
        rw [if_neg c1, if_pos c4, if_pos c5]
      · refine Or.inr (Or.inr (Or.inr (Or.inr (Or.inl ⟨c1, c4, eq_false_of_ne_true c5, ?_⟩))))
        unfold mainBody
        rw [if_neg c1, if_pos c4, if_neg c5]
    · refine Or.inr (Or.inr (Or.inr (Or.inr (Or.inr ⟨c1, eq_false_of_ne_true c4, ?_⟩))))
      unfold mainBody
      rw [if_neg c1, if_neg c4]

/-! Claim theorems. -/

/-- Claim C1, counterexample: in the state where the stored and first
actual timestamps agree, the checksums differ, and the re-queried
timestamp differs from the stored one, the source does NOT downgrade to
the Outdated path: no write is attempted (no write event in the trace),
nothing is reported, the streams are left as they were, and the exit
code is 0 — contradicting the claimed call to writeRecord with the
newer timestamp. -/
theorem c1_downgrade_counterexample :
    getStoredTimestamp envConcEdit.tsStream = .ok (some 0) ∧
    envConcEdit.actualTs1 = 0 ∧
    getStoredSha256 envConcEdit.shaStream ≠ some (getActualSha256 envConcEdit.hexdigest) ∧
    envConcEdit.actualTs2 ≠ 0 ∧
    main envConcEdit = .ok
      { exit := 0, finalTs := envConcEdit.tsStream, finalSha := envConcEdit.shaStream,
        events := [.readStoredTs, .readStoredSha, .statMtime, .hashContent, .statMtime],
        reports := [] } := by
  decide

/-- Claim C1, amended: when the stored and first actual timestamps agree,
the checksums differ, and the single re-queried timestamp differs from
the stored one, the run is indeed not classified Ok or Corrupt, but no
downgrade to the Outdated path happens: no metadata write is attempted,
both stored streams are unchanged, nothing is reported, and the exit
code is 0. -/
theorem c1_concurrent_edit_noop (env : Env) (f : Str) (t : Int)
    (hf : env.filenameArg = some f)
    (hts : getStoredTimestamp env.tsStream = .ok (some t))
    (h1 : env.actualTs1 = t)
    (hsha : getStoredSha256 env.shaStream ≠ some (getActualSha256 env.hexdigest))
    (h2 : env.actualTs2 ≠ t) :
    main env = .ok
      { exit := 0, finalTs := env.tsStream, finalSha := env.shaStream,
        events := captureEvs ++ [.statMtime], reports := [] } := by
  rw [main_some env f (some t) hf hts]
  refine congrArg Except.ok ?_
  have c1 : some t = some env.actualTs1 := by rw [h1]
  have c3 : ¬(some t = some env.actualTs2) := by
    intro hc
    exact h2 (Option.some.inj hc).symm
  unfold mainBody
  rw [if_pos c1, if_pos hsha, if_neg c3]

/-- Claim C1, witness for the amended theorem at a concrete input. -/
theorem c1_concurrent_edit_noop_witness :
    main envConcEdit = .ok
      { exit := 0, finalTs := envConcEdit.tsStream, finalSha := envConcEdit.shaStream,
        events := captureEvs ++ [.statMtime], reports := [] } :=
  c1_concurrent_edit_noop envConcEdit ("f".toList) 0 (by decide) (by decide) (by decide)
    (by decide) (by decide)

/-- Claim C2, counterexample: a malformed stored-timestamp stream makes
main raise the parse fault past its boundary instead of converting it to
a reported message and an exit code: the invocation does not return
normally at all. -/
theorem c2_unhandled_fault_counterexample :
    main envMalformedTs = .error .parseError := by
  decide

/-- Claim C2, amended: when main returns normally its exit code is one
of 0, 1, 4, 5, but main does not catch every propagated error at its
boundary: an invocation that fails does so precisely because the stored
timestamp stream exists with unparseable content, and that ParseError
(Python ValueError) escapes main unhandled. -/
theorem c2_exit_codes_or_escaping_fault (env : Env) :
    (match main env with
     | .ok r => r.exit = 0 ∨ r.exit = 1 ∨ r.exit = 4 ∨ r.exit = 5
     | .error _ => ∃ s, env.tsStream = some s ∧ parseTsContent s = none) := by
  cases hf : env.filenameArg with
  | none =>
    unfold main
    rw [hf]
    simp
  | some f =>
    cases hts : getStoredTimestamp env.tsStream with
    | error e =>
      rw [main_error env f e hf hts]
      cases hstream : env.tsStream with
      | none =>
        rw [hstream] at hts
        exact Except.noConfusion hts
      | some s =>
        unfold getStoredTimestamp at hts
        rw [hstream] at hts
        dsimp only at hts
        cases hp : parseTsContent s with
        | some v =>
          rw [hp] at hts
          exact Except.noConfusion hts
        | none =>
          exact ⟨s, rfl, hp⟩
    | ok st =>
      rw [main_some env f st hf hts]
      dsimp only
      rcases mainBody_enum env st with ⟨_, _, hcase⟩ | ⟨_, _, _, hcase⟩ | ⟨_, _, _, hcase⟩ |
        ⟨_, _, _, hcase⟩ | ⟨_, _, _, hcase⟩ | ⟨_, _, hcase⟩ <;> rw [hcase] <;> simp

/-- Claim C3: in the Corrupt state (stored timestamp equals both actual
timestamp observations while the checksums differ) main performs no
metadata write: both stored streams are returned unchanged, the trace
has no write attempt, the corrupt line is reported, and the exit code
is 5. -/
theorem c3_corrupt_preserves_metadata (env : Env) (f : Str) (t : Int)
    (hf : env.filenameArg = some f)
    (hts : getStoredTimestamp env.tsStream = .ok (some t))
    (h1 : env.actualTs1 = t)
    (hsha : getStoredSha256 env.shaStream ≠ some (getActualSha256 env.hexdigest))
    (h2 : env.actualTs2 = t) :
    main env = .ok
      { exit := 5, finalTs := env.tsStream, finalSha := env.shaStream,
        events := captureEvs ++ [.statMtime], reports := [.corruptLine] } := by
  rw [main_some env f (some t) hf hts]
  refine congrArg Except.ok ?_
  have c1 : some t = some env.actualTs1 := by rw [h1]
  have c3 : some t = some env.actualTs2 := by rw [h2]
  unfold mainBody
  rw [if_pos c1, if_pos hsha, if_pos c3]

/-- Claim C3, witness at a concrete corrupt environment. -/
theorem c3_corrupt_preserves_metadata_witness :
    main envCorrupt = .ok
      { exit := 5, finalTs := envCorrupt.tsStream, finalSha := envCorrupt.shaStream,
        events := captureEvs ++ [.statMtime], reports := [.corruptLine] } :=
  c3_corrupt_preserves_metadata envCorrupt ("f".toList) 0 (by decide) (by decide)
    (by decide) (by decide) (by decide)

/-- Claim C4: after a successful metadata write for an actual record
with lowercase digest and a platform-representable timestamp (every
timestamp observed via stat on this platform is a whole number of
100-nanosecond FILETIME ticks, and far below the 64-bit FILETIME bound),
the checksum stream holds exactly the lowercase digest, the timestamp
stream holds exactly the formatted text, the file-level
last-modification attribute reads back as exactly that timestamp, and
the trace shows SetFileTime issued on the same still-open handle that
wrote the timestamp stream, after the stream write and before that
handle is closed. -/
theorem c4_writeRecord_invariant (k1 k2 : Nat) (dg : Str) (t : Int)
    (side1 side2 : FILETIME) (m : FileMeta)
    (ht0 : 0 ≤ t)
    (hrep : (t + NANOSECONDS_BETWEEN_EPOCHS) % 100 = 0)
    (hlt : t + NANOSECONDS_BETWEEN_EPOCHS < 1844674407370955161600) :
    (writeRecord k1 k2 (lowerStr dg) t side1 side2 m).1.shaStream = some (lowerStr dg) ∧
    (writeRecord k1 k2 (lowerStr dg) t side1 side2 m).1.tsStream = some (formatTimestamp t) ∧
    FILETIME_to_time_ns (writeRecord k1 k2 (lowerStr dg) t side1 side2 m).1.mtime = t ∧
    (writeRecord k1 k2 (lowerStr dg) t side1 side2 m).2 =
      [.openWrite k1 .shaStream, .writeBytes k1 (lowerStr dg), .closeHandle k1,
       .openWrite k2 .tsStream, .writeBytes k2 (formatTimestamp t),
       .setFileTime k2 (time_ns_to_FILETIME t), .closeHandle k2] := by
  have hNBE : NANOSECONDS_BETWEEN_EPOCHS = 11644473600000000000 := by
    norm_num [NANOSECONDS_BETWEEN_EPOCHS]
  have key : FILETIME_to_time_ns (time_ns_to_FILETIME t) = t := by
    rw [filetime_roundtrip t (by rw [hNBE]; omega) hlt, hrep]
    omega
  exact ⟨rfl, rfl, key, rfl⟩

/-- Claim C4, witness at a concrete record and metadata state. -/
theorem c4_writeRecord_invariant_witness :
    (writeRecord 7 8 (lowerStr ("AB".toList)) 0 ⟨1, 2⟩ ⟨3, 4⟩ ⟨none, none, ⟨0, 0⟩⟩).1.shaStream =
      some (lowerStr ("AB".toList)) ∧
    (writeRecord 7 8 (lowerStr ("AB".toList)) 0 ⟨1, 2⟩ ⟨3, 4⟩ ⟨none, none, ⟨0, 0⟩⟩).1.tsStream =
      some (formatTimestamp 0) ∧
    FILETIME_to_time_ns
      (writeRecord 7 8 (lowerStr ("AB".toList)) 0 ⟨1, 2⟩ ⟨3, 4⟩ ⟨none, none, ⟨0, 0⟩⟩).1.mtime = 0 ∧
    (writeRecord 7 8 (lowerStr ("AB".toList)) 0 ⟨1, 2⟩ ⟨3, 4⟩ ⟨none, none, ⟨0, 0⟩⟩).2 =
      [.openWrite 7 .shaStream, .writeBytes 7 (lowerStr ("AB".toList)), .closeHandle 7,
       .openWrite 8 .tsStream, .writeBytes 8 (formatTimestamp 0),
       .setFileTime 8 (time_ns_to_FILETIME 0), .closeHandle 8] :=
  c4_writeRecord_invariant 7 8 ("AB".toList) 0 ⟨1, 2⟩ ⟨3, 4⟩ ⟨none, none, ⟨0, 0⟩⟩
    (by decide) (by decide) (by decide)

/-- Claim C5: exit code mapping of main.  An invocation with the
no-file-argument sentinel returns 1; Ok returns 0; Corrupt returns 5; an
Outdated run whose two metadata writes succeed returns 0; an Outdated
run in which a metadata write fails returns 4; and no other exit code
than 0, 1, 4, 5 is ever returned. -/
theorem c5_exit_code_mapping (env : Env) (st : Option Int) (r : MainRes)
    (hts : getStoredTimestamp env.tsStream = .ok st)
    (hr : main env = .ok r) :
    (env.filenameArg = none → r.exit = 1) ∧
    (∀ f, env.filenameArg = some f →
      ((st = some env.actualTs1 ∧
          getStoredSha256 env.shaStream = some (getActualSha256 env.hexdigest)) →
        r.exit = 0) ∧
      ((st = some env.actualTs1 ∧
          getStoredSha256 env.shaStream ≠ some (getActualSha256 env.hexdigest) ∧
          st = some env.actualTs2) →
        r.exit = 5) ∧
      ((st ≠ some env.actualTs1 ∧ env.writeShaOk = true ∧ env.writeTsOk = true) →
        r.exit = 0) ∧
      ((st ≠ some env.actualTs1 ∧ ¬(env.writeShaOk = true ∧ env.writeTsOk = true)) →
        r.exit = 4)) ∧
    (r.exit = 0 ∨ r.exit = 1 ∨ r.exit = 4 ∨ r.exit = 5) := by
  cases hf : env.filenameArg with
  | none =>
    unfold main at hr
    rw [hf] at hr
    dsimp only at hr
    have hr' := Except.ok.inj hr
    refine ⟨fun _ => by rw [← hr'], fun f hfa => absurd hfa (by simp), ?_⟩
    rw [← hr']
    exact Or.inr (Or.inl rfl)
  | some f0 =>
    rw [main_some env f0 st hf hts] at hr
    have hr' := Except.ok.inj hr
    subst hr'
    rcases mainBody_enum env st with ⟨e1, e2, hcase⟩ | ⟨e1, e2, e3, hcase⟩ |
      ⟨e1, e2, e3, hcase⟩ | ⟨e1, e2, e3, hcase⟩ | ⟨e1, e2, e3, hcase⟩ | ⟨e1, e2, hcase⟩ <;>
      rw [hcase]
    · exact ⟨fun h => Option.noConfusion h,
        fun f _ => ⟨fun _ => rfl, fun hc => absurd e2 hc.2.1,
          fun hc => absurd e1 hc.1, fun hc => absurd e1 hc.1⟩,
        Or.inl rfl⟩
    · exact ⟨fun h => Option.noConfusion h,
        fun f _ => ⟨fun hc => absurd hc.2 e2, fun _ => rfl,
          fun hc => absurd e1 hc.1, fun hc => absurd e1 hc.1⟩,
        Or.inr (Or.inr (Or.inr rfl))⟩
    · exact ⟨fun h => Option.noConfusion h,
        fun f _ => ⟨fun hc => absurd hc.2 e2, fun hc => absurd hc.2.2 e3,
          fun hc => absurd e1 hc.1, fun hc => absurd e1 hc.1⟩,
        Or.inl rfl⟩
    · exact ⟨fun h => Option.noConfusion h,
        fun f _ => ⟨fun hc => absurd hc.1 e1, fun hc => absurd hc.1 e1,
          fun _ => rfl, fun hc => absurd ⟨e2, e3⟩ hc.2⟩,
        Or.inl rfl⟩
    · refine ⟨fun h => Option.noConfusion h,
        fun f _ => ⟨fun hc => absurd hc.1 e1, fun hc => absurd hc.1 e1,
          fun hc => ?_, fun _ => rfl⟩,
        Or.inr (Or.inr (Or.inl rfl))⟩
      rw [hc.2.2] at e3
      exact Bool.noConfusion e3
    · refine ⟨fun h => Option.noConfusion h,
        fun f _ => ⟨fun hc => absurd hc.1 e1, fun hc => absurd hc.1 e1,
          fun hc => ?_, fun _ => rfl⟩,
        Or.inr (Or.inr (Or.inl rfl))⟩
      rw [hc.2.1] at e2
      exact Bool.noConfusion e2

/-- Claim C5, witness: the mapping applied at a concrete Ok run. -/
theorem c5_exit_code_mapping_witness :
    resOkCase.exit = 0 ∨ resOkCase.exit = 1 ∨ resOkCase.exit = 4 ∨ resOkCase.exit = 5 :=
  (c5_exit_code_mapping envOkCase (some 0) resOkCase (by decide) (by decide)).2.2

/-- Claim C6: for every nonnegative nanosecond value, parsing the
stored-timestamp text produced by formatTimestamp, exactly as
getStoredTimestamp parses it, yields the value back. -/
theorem c6_format_parse_roundtrip (t : Int) (h : 0 ≤ t) :
    getStoredTimestamp (some (formatTimestamp t)) = .ok (some t) := by
  unfold getStoredTimestamp
  dsimp only
  rw [parse_format_roundtrip t h]

/-- Claim C6, witness at a concrete nanosecond timestamp. -/
theorem c6_format_parse_roundtrip_witness :
    getStoredTimestamp (some (formatTimestamp 1609459200123456789)) =
      .ok (some 1609459200123456789) :=
  c6_format_parse_roundtrip 1609459200123456789 (by decide)

/-- Claim C7: getStoredTimestamp returns absent exactly when the
timestamp stream does not exist, and on an existing stream it raises the
parse fault (rather than returning absent) exactly when the content is
not of the seconds-dot-nanoseconds form with both fields parseable as
integers. -/
theorem c7_absent_iff_missing_and_parse_fault :
    (∀ st : Option Str, getStoredTimestamp st = .ok none ↔ st = none) ∧
    (∀ s : Str, getStoredTimestamp (some s) = .error .parseError ↔ ¬ TsTextWellFormed s) := by
  constructor
  · intro st
    cases st with
    | none => simp [getStoredTimestamp]
    | some s =>
      simp only [getStoredTimestamp]
      cases hp : parseTsContent s with
      | none => simp
      | some t => simp
  · intro s
    rw [← parseTsContent_ne_none_iff, not_not]
    simp only [getStoredTimestamp]
    cases hp : parseTsContent s with
    | none => simp
    | some t => simp

/-- Claim C8, counterexample: the captures do not happen in the claimed
order stored checksum first, stored timestamp second: on a concrete run
the trace begins with the stored-timestamp read. -/
theorem c8_capture_order_counterexample :
    main envOkCase = .ok
      { exit := 0, finalTs := envOkCase.tsStream, finalSha := envOkCase.shaStream,
        events := captureEvs, reports := [.okLine] } ∧
    captureEvs.take 4 ≠ [Ev.readStoredSha, Ev.readStoredTs, Ev.statMtime, Ev.hashContent] := by
  decide

/-- Claim C8, amended: every normally returning invocation with a file
argument captures its four inputs exactly once each, in the order stored
timestamp, stored checksum, actual timestamp, actual checksum, all
before anything else happens; the only further capture ever added is the
single timestamp re-query of step 1b. -/
theorem c8_capture_order (env : Env) (f : Str) (r : MainRes)
    (hf : env.filenameArg = some f) (hr : main env = .ok r) :
    r.events.take 4 = captureEvs ∧
    (r.events.filter isCaptureEv = captureEvs ∨
     r.events.filter isCaptureEv = captureEvs ++ [.statMtime]) := by
  cases hts : getStoredTimestamp env.tsStream with
  | error e =>
    rw [main_error env f e hf hts] at hr
    exact Except.noConfusion hr
  | ok st =>
    rw [main_some env f st hf hts] at hr
    have hr' := Except.ok.inj hr
    subst hr'
    rcases mainBody_enum env st with ⟨_, _, hcase⟩ | ⟨_, _, _, hcase⟩ | ⟨_, _, _, hcase⟩ |
      ⟨_, _, _, hcase⟩ | ⟨_, _, _, hcase⟩ | ⟨_, _, hcase⟩ <;> rw [hcase]
    · exact ⟨rfl, Or.inl rfl⟩
    · exact ⟨rfl, Or.inr rfl⟩
    · exact ⟨rfl, Or.inr rfl⟩
    · exact ⟨rfl, Or.inl rfl⟩
    · exact ⟨rfl, Or.inl rfl⟩
    · exact ⟨rfl, Or.inl rfl⟩

/-- Claim C8, witness for the amended theorem at a concrete run. -/
theorem c8_capture_order_witness :
    resConcEdit.events.take 4 = captureEvs ∧
    (resConcEdit.events.filter isCaptureEv = captureEvs ∨
     resConcEdit.events.filter isCaptureEv = captureEvs ++ [.statMtime]) :=
  c8_capture_order envConcEdit ("f".toList) resConcEdit (by decide) (by decide)

/-- Claim C9, counterexample: the claimed round-trip formula holds
without restriction only if the FILETIME fields were unbounded; at a
nanosecond value at the 64-bit FILETIME wraparound the two ctypes DWORD
fields truncate and the claimed equality fails (the input is
nonnegative, so it lies in the domain the claim quantifies over). -/
theorem c9_roundtrip_counterexample :
    (0 : Int) ≤ 1844674407370955161600 ∧
    FILETIME_to_time_ns (time_ns_to_FILETIME 1844674407370955161600) ≠
      1844674407370955161600 -
        (1844674407370955161600 + NANOSECONDS_BETWEEN_EPOCHS) % 100 := by
  constructor
  · decide
  · decide

/-- Claim C9, amended: for every nonnegative nanosecond value below the
64-bit FILETIME range (after the epoch shift), the Win32 clock
round-trip truncates to the 100-nanosecond granularity exactly as
claimed: converting to FILETIME and back yields the value minus the
remainder of the shifted value modulo 100, so the value survives
bit-identically only when that remainder is zero. -/
theorem c9_roundtrip_bounded (t : Int) (h0 : 0 ≤ t)
    (hlt : t + NANOSECONDS_BETWEEN_EPOCHS < 1844674407370955161600) :
    FILETIME_to_time_ns (time_ns_to_FILETIME t) =
      t - (t + NANOSECONDS_BETWEEN_EPOCHS) % 100 := by
  have hNBE : NANOSECONDS_BETWEEN_EPOCHS = 11644473600000000000 := by
    norm_num [NANOSECONDS_BETWEEN_EPOCHS]
  exact filetime_roundtrip t (by rw [hNBE]; omega) hlt

/-- Claim C9, witness at a concrete timestamp not divisible by 100. -/
theorem c9_roundtrip_bounded_witness :
    FILETIME_to_time_ns (time_ns_to_FILETIME 12345) =
      12345 - (12345 + NANOSECONDS_BETWEEN_EPOCHS) % 100 :=
  c9_roundtrip_bounded 12345 (by decide) (by decide)

/-- Claim C10: getStoredSha256 lowercases the stream content on read, so
when the stored and actual timestamps agree, a stored digest that equals
the lowercase actual digest up to letter case still classifies as Ok:
exit 0, the ok line, no timestamp re-query and no write. -/
theorem c10_stored_digest_case_insensitive (env : Env) (f : Str) (t : Int) (s : Str)
    (hf : env.filenameArg = some f)
    (hts : getStoredTimestamp env.tsStream = .ok (some t))
    (h1 : env.actualTs1 = t)
    (hsha : env.shaStream = some s)
    (hcase : lowerStr s = lowerStr env.hexdigest) :
    main env = .ok
      { exit := 0, finalTs := env.tsStream, finalSha := env.shaStream,
        events := captureEvs, reports := [.okLine] } := by
  rw [main_some env f (some t) hf hts]
  refine congrArg Except.ok ?_
  have c1 : some t = some env.actualTs1 := by rw [h1]
  have heq : getStoredSha256 env.shaStream = some (getActualSha256 env.hexdigest) := by
    rw [hsha]
    unfold getStoredSha256 getActualSha256
    dsimp only
    rw [hcase]
  unfold mainBody
  rw [if_pos c1, if_neg (not_not_intro heq)]

/-- Claim C10, witness: a stored digest in uppercase classifies as Ok
against the lowercase actual digest. -/
theorem c10_stored_digest_case_insensitive_witness :
    main envOkCase = .ok
      { exit := 0, finalTs := envOkCase.tsStream, finalSha := envOkCase.shaStream,
        events := captureEvs, reports := [.okLine] } :=
  c10_stored_digest_case_insensitive envOkCase ("f".toList) 0 ("AB12".toList)
    (by decide) (by decide) (by decide) (by decide) (by decide)

end Winshatag
